import Mathlib

/-!
Shallow embedding of `sqsub.py`: a wrapper around the SHARCNET `sqsub`
scheduler command that submits a job and tracks it with a background
daemon (`JobTracker.run`).  External effects (subprocess calls, the
filesystem, the clock) are modelled as explicit inputs; the emails sent
by the tracker are collected in an explicit event list.
-/

/-- Model of a subprocess call via `subprocess.check_output`: either the
command exits zero with some captured output, or it exits non-zero and
`CalledProcessError` is raised. -/
inductive CmdResult where
  | ok (output : String)
  | err
deriving DecidableEq

/-- Whitespace tokenisation matching Python's `str.split()` with no
arguments: split on runs of whitespace, producing no empty tokens.
The accumulator holds the current in-progress token, reversed. -/
def wsTokensAux : List Char → List Char → List String
  | [], acc => if acc.isEmpty then [] else [⟨acc.reverse⟩]
  | c :: cs, acc =>
    if c.isWhitespace then
      (if acc.isEmpty then [] else [⟨acc.reverse⟩]) ++ wsTokensAux cs []
    else
      wsTokensAux cs (c :: acc)

/-- `tokens s` is Python's `s.split()`. -/
def tokens (s : String) : List String := wsTokensAux s.data []

/-- Outcome of `submit_job` (src/sqsub.py lines 39-58): a `Job` record on
success, `None` (printed message) when `sqsub` exits non-zero, or an
uncaught `IndexError` when `output.split()[-1]` indexes an empty list. -/
inductive SubmitResult where
  | record (id : String)
  | failure
  | crash
deriving DecidableEq

/-- `submit_job` from src/sqsub.py lines 39-58, as a function of the
result of the `sqsub` subprocess call.  On success the job id is
`output.split()[-1]`; `except subprocess.CalledProcessError` returns
`None` (modelled as `.failure`); an empty token list makes `[-1]` raise
an uncaught `IndexError` (modelled as `.crash`). -/
def submit_job (r : CmdResult) : SubmitResult :=
  match r with
  | .err => .failure
  | .ok output =>
    match (tokens output).getLast? with
    | some jobid => .record jobid
    | none => .crash

/-- Outcome of `Job.query` (src/sqsub.py lines 82-85): the token after
the attribute, or one of three uncaught exceptions: `CalledProcessError`
when `sqjobs` fails, `ValueError` from `list.index` when the attribute
is absent, `IndexError` when the attribute is the final token. -/
inductive QueryResult where
  | value (v : String)
  | absent
  | cmdFailed
  | crash
deriving DecidableEq

/-- `Job.query` from src/sqsub.py lines 82-85:
`stat = check_output(['sqjobs','-l',id]).split(); return stat[stat.index(att)+1]`,
as a function of the `sqjobs` subprocess result. -/
def query (cmd : CmdResult) (att : String) : QueryResult :=
  match cmd with
  | .err => .cmdFailed
  | .ok out =>
    let stat := tokens out
    match stat.indexOf? att with
    | none => .absent
    | some i =>
      match stat[i + 1]? with
      | some v => .value v
      | none => .crash

/-- `get_offline_nodes` from src/sqsub.py lines 28-36: ping each node in
order; a failed ping (`CalledProcessError`) appends the node to the
result and the loop continues with the remaining nodes.  `ping n = true`
models a successful `ping -c 1 n` call. -/
def get_offline_nodes (ping : String → Bool) : List String → List String
  | [] => []
  | node :: rest =>
    if ping node then get_offline_nodes ping rest
    else node :: get_offline_nodes ping rest

/-- Substring containment, Python's `pat in s` on the character list. -/
def containsSub (pat : List Char) : List Char → Bool
  | [] => pat.isEmpty
  | c :: cs => pat.isPrefixOf (c :: cs) || containsSub pat cs

/-- Python's `pat in s` for strings. -/
def containsSubstr (s pat : String) : Bool := containsSub pat.data s.data

/-- One pass of Python's `str.replace`, left to right, non-overlapping,
with fuel bounding the recursion (the fuel is the string length, which
suffices because a nonempty match consumes at least one character). -/
def replaceAux (pat rep : List Char) : Nat → List Char → List Char
  | _, [] => []
  | 0, s => s
  | fuel + 1, c :: cs =>
    if pat.isPrefixOf (c :: cs) then
      rep ++ replaceAux pat rep fuel ((c :: cs).drop pat.length)
    else
      c :: replaceAux pat rep fuel cs

/-- Python's `s.replace(pat, rep)` for a nonempty pattern (the pattern
used in the source, `${PBS_JOBID}`, is never empty; an empty pattern is
left as the identity). -/
def strReplace (s pat rep : String) : String :=
  if pat.data.isEmpty then s
  else ⟨replaceAux pat.data rep.data s.data.length s.data⟩

/-- The `${PBS_JOBID}` placeholder looked for by `Job.refresh_log_path`. -/
def pbsPlaceholder : String := "${PBS_JOBID}"

/-- The `Job` record (src/sqsub.py lines 61-102): id, log path, state
and node list, each refreshed on demand from the scheduler. -/
structure Job where
  id : String
  log : Option String
  state : Option String
  nodes : List String
deriving DecidableEq

/-- Scheduler responses consumed by `Job.refresh_log_path`: the value of
the `file:` attribute from `sqjobs`, and the whitespace-split output of
`qstat -f id` (the code reads its third token, `qstat[2]`). -/
structure LogEnv where
  fileAtt : String
  qstatTokens : List String
deriving DecidableEq

/-- `Job.refresh_log_path` from src/sqsub.py lines 87-94: take the
`file:` attribute; if it contains `${PBS_JOBID}`, replace the
placeholder with `qstat[2]`; store the result in `self.log`.  Returns
`none` when `qstat[2]` would raise `IndexError`. -/
def refresh_log_path (env : LogEnv) (j : Job) : Option Job :=
  if containsSubstr env.fileAtt pbsPlaceholder then
    match env.qstatTokens[2]? with
    | some qid => some { j with log := some (strReplace env.fileAtt pbsPlaceholder qid) }
    | none => none
  else
    some { j with log := some env.fileAtt }

/-- `TIME_DEAD = 60. * 90.` (src/sqsub.py line 20): the staleness
threshold in seconds (5400), above which a job is considered frozen.
Written as the literal value so that comparisons evaluate. -/
def TIME_DEAD : ℚ := 5400

/-- One poll of the waiting loop (src/sqsub.py lines 134-139): the job
state as refreshed from the scheduler and whether `os.path.isfile`
holds of the current log path. -/
structure WaitObs where
  state : String
  logExists : Bool
deriving DecidableEq

/-- The exit condition of the waiting loop: the negation of
`not self.job.state == "R" or not os.path.isfile(self.job.log)`. -/
def waitDone (o : WaitObs) : Bool := o.state == "R" && o.logExists

/-- The `WAITING_FOR_START` loop (src/sqsub.py lines 134-139) over a
finite list of future observations: check the current observation;
while it fails, refresh (move to the next observation) and re-poll.
Returns the observation with which the loop exited, or `none` if the
condition never held within the observed polls. -/
def wait_loop (cur : WaitObs) : List WaitObs → Option WaitObs
  | [] => if waitDone cur then some cur else none
  | nxt :: rest => if waitDone cur then some cur else wait_loop nxt rest

/-- External observations consumed by one tick of the active loop
(src/sqsub.py lines 149-174): the refreshed job state, the seconds
since the log file was last modified, and the per-node ping outcome. -/
structure Tick where
  state : String
  secsSinceLog : ℚ
  ping : String → Bool

/-- Monitor state threaded through the active loop: the baseline node
list, the `frozen_note` flag, the emails sent so far (in order), and an
event trace of the node lists passed to `get_offline_nodes`. -/
structure MState where
  nodes : List String
  frozen_note : Bool
  emails : List String
  checks : List (List String)
deriving DecidableEq

/-- Result of one tick: continue to the next poll, or `break` out of
the `while True` loop. -/
inductive TickResult where
  | next (s : MState)
  | halt (s : MState)
deriving DecidableEq

/-- One iteration of the `while True` loop of `JobTracker.run`
(src/sqsub.py lines 149-174): refresh state; if `state == "D"` email
`JOB ENDED` and break; else ping the nodes and if any is offline email
`NODE FAILURE` and break; else if the log is stale and `frozen_note` is
unset email `FROZEN JOB?` and set the flag; then sleep. -/
def active_tick (t : Tick) (s : MState) : TickResult :=
  if t.state = "D" then
    .halt { s with emails := s.emails ++ ["JOB ENDED"] }
  else
    let s1 : MState := { s with checks := s.checks ++ [s.nodes] }
    if (get_offline_nodes t.ping s.nodes).length > 0 then
      .halt { s1 with emails := s1.emails ++ ["NODE FAILURE"] }
    else if TIME_DEAD < t.secsSinceLog ∧ s.frozen_note = false then
      .next { s1 with emails := s1.emails ++ ["FROZEN JOB?"], frozen_note := true }
    else
      .next s1

/-- The active loop run over a finite list of tick observations.  The
boolean records whether the loop terminated (reached `break`) within
the observed ticks. -/
def active_loop : List Tick → MState → MState × Bool
  | [], s => (s, false)
  | t :: rest, s =>
    match active_tick t s with
    | .halt s1 => (s1, true)
    | .next s1 => active_loop rest s1

/-- External observations for one whole `JobTracker.run` session: the
waiting-loop observations, the node list obtained by the single
`refresh_nodes` call after entering the active phase, and the active
tick observations. -/
structure RunEnv where
  firstObs : WaitObs
  waitObs : List WaitObs
  baselineNodes : List String
  ticks : List Tick

/-- `JobTracker.run` (src/sqsub.py lines 130-178): wait for the job to
start, sleep one poll interval, refresh the node list once, then run
the active loop starting with `frozen_note = False`.  Returns `none`
while the waiting loop has not exited within the observed polls. -/
def tracker_run (env : RunEnv) : Option (MState × Bool) :=
  match wait_loop env.firstObs env.waitObs with
  | none => none
  | some _ =>
    some (active_loop env.ticks
      { nodes := env.baselineNodes, frozen_note := false, emails := [], checks := [] })

/-! ## Theorems -/

/-- C4: `submit_job` returns the `None` failure value exactly when the
external `sqsub` command exits non-zero; on a successful invocation
whose output has a last whitespace-delimited token, that token becomes
the job id of the returned record. -/
theorem submit_failure_iff_nonzero_exit (r : CmdResult) (out last : String)
    (h : (tokens out).getLast? = some last) :
    (submit_job r = .failure ↔ r = .err) ∧
    submit_job (.ok out) = .record last := by
  refine ⟨⟨fun hf => ?_, fun he => by subst he; rfl⟩, by simp [submit_job, h]⟩
  cases r with
  | err => rfl
  | ok o =>
    exfalso
    unfold submit_job at hf
    cases htok : (tokens o).getLast? <;> simp [htok] at hf

/-- Witness for C4 at a failing call and at `sqsub` output "job 42". -/
theorem submit_failure_iff_nonzero_exit_witness :
    (submit_job .err = .failure ↔ (.err : CmdResult) = .err) ∧
    submit_job (.ok "submitted. jobid 42") = .record "42" :=
  submit_failure_iff_nonzero_exit .err "submitted. jobid 42" "42" (by decide)

/-- C10: when `sqsub` exits zero with whitespace-only output,
`output.split()[-1]` raises an uncaught `IndexError`: the result is
neither a job record nor the `None` failure value. -/
theorem submit_empty_output_crashes (out : String) (h : tokens out = []) :
    submit_job (.ok out) = .crash ∧
    (∀ i, submit_job (.ok out) ≠ .record i) ∧
    submit_job (.ok out) ≠ .failure := by
  have hc : submit_job (.ok out) = .crash := by simp [submit_job, h]
  exact ⟨hc, fun i => by simp [hc], by simp [hc]⟩

/-- Witness for C10 at whitespace-only output. -/
theorem submit_empty_output_crashes_witness :
    submit_job (.ok "  \n\t ") = .crash ∧
    (∀ i, submit_job (.ok "  \n\t ") ≠ .record i) ∧
    submit_job (.ok "  \n\t ") ≠ .failure :=
  submit_empty_output_crashes "  \n\t " (by decide)

/-- C1 counterexample: a successful `sqsub` invocation whose last
output token is not purely numeric yields a job record with that
non-numeric id; `submit_job` performs no digit check and does not fail. -/
theorem submit_accepts_nonnumeric_id :
    submit_job (.ok "submitted as job ab7c") = .record "ab7c" ∧
    "ab7c".data.all Char.isDigit = false ∧
    submit_job (.ok "submitted as job ab7c") ≠ .failure := by decide

/-- C1 amended: whenever `submit_job` returns a record, its id is the
last whitespace-delimited token of the output, with no numeric
validation: even when that token is not purely numeric the record is
returned and no failure value is produced. -/
theorem submit_id_unvalidated (out last : String)
    (h : (tokens out).getLast? = some last)
    (_hnd : last.data.all Char.isDigit = false) :
    submit_job (.ok out) = .record last ∧
    submit_job (.ok out) ≠ .failure := by
  have hr : submit_job (.ok out) = .record last := by simp [submit_job, h]
  exact ⟨hr, by simp [hr]⟩

/-- Witness for the amended C1 at output whose last token is ab7c. -/
theorem submit_id_unvalidated_witness :
    submit_job (.ok "submitted as job ab7c") = .record "ab7c" ∧
    submit_job (.ok "submitted as job ab7c") ≠ .failure :=
  submit_id_unvalidated "submitted as job ab7c" "ab7c" (by decide) (by decide)

/-- C6: `get_offline_nodes` returns exactly the sublist of nodes whose
single ping failed; the recursion continues past a failed node (no
short-circuit), the empty list yields the empty list, and an
all-unreachable list is returned whole. -/
theorem offline_nodes_exact (ping : String → Bool) (nodes : List String)
    (n : String) (rest : List String) :
    get_offline_nodes ping [] = [] ∧
    get_offline_nodes ping nodes = nodes.filter (fun x => !(ping x)) ∧
    get_offline_nodes ping (n :: rest) =
      (if ping n then [] else [n]) ++ get_offline_nodes ping rest ∧
    ((∀ x ∈ nodes, ping x = false) → get_offline_nodes ping nodes = nodes) := by
  have hfilter : ∀ l : List String,
      get_offline_nodes ping l = l.filter (fun x => !(ping x)) := by
    intro l
    induction l with
    | nil => rfl
    | cons a as ih =>
      by_cases hp : ping a <;> simp [get_offline_nodes, hp, List.filter_cons, ih]
  refine ⟨rfl, hfilter nodes, ?_, fun hall => ?_⟩
  · by_cases hp : ping n <;> simp [get_offline_nodes, hp]
  · rw [hfilter nodes]
    exact List.filter_eq_self.mpr (fun x hx => by simp [hall x hx])

/-- Witness for C6 at the known-offline node list from the tests. -/
theorem offline_nodes_exact_witness :
    get_offline_nodes (fun _ => false) [] = [] ∧
    get_offline_nodes (fun _ => false) ["tem100"] = ["tem100"] :=
  ⟨(offline_nodes_exact (fun _ => false) ["tem100"] "tem100" []).1,
   (offline_nodes_exact (fun _ => false) ["tem100"] "tem100" []).2.2.2 (by decide)⟩

/-- C5 counterexample: the queried attribute occurs in the `sqjobs`
output (as its final token), yet `query` raises an uncaught
`IndexError` (`stat[stat.index(att) + 1]` is out of range) instead of
returning a value. -/
theorem query_last_token_crashes :
    query (.ok "job 1 state:") "state:" = .crash ∧
    "state:" ∈ tokens "job 1 state:" := by decide

/-- C5 amended: `query` returns the token immediately following the
first occurrence of the attribute whenever a following token exists;
it fails with the absent case iff the attribute does not occur and
with the command-failure case iff `sqjobs` exits non-zero; when the
attribute's first occurrence is the final token, the result is instead
an uncaught out-of-range error. -/
theorem query_amended (out att v : String) (i : Nat)
    (h1 : (tokens out).indexOf? att = some i)
    (h2 : (tokens out)[i + 1]? = some v) :
    query (.ok out) att = .value v ∧
    query .err att = .cmdFailed ∧
    (∀ out2, att ∉ tokens out2 → query (.ok out2) att = .absent) ∧
    (∀ out3 j, (tokens out3).indexOf? att = some j →
      (tokens out3)[j + 1]? = none → query (.ok out3) att = .crash) := by
  refine ⟨by simp [query, h1, h2], rfl, fun out2 habs => ?_, fun out3 j hj hn => ?_⟩
  · have hnone : (tokens out2).indexOf? att = none :=
      List.indexOf?_eq_none_iff.mpr (fun x hx => by
        simp only [beq_iff_eq]
        intro heq
        exact habs (heq ▸ hx))
    simp [query, hnone]
  · simp [query, hj, hn]

/-- Witness for the amended C5 on concrete `sqjobs` outputs. -/
theorem query_amended_witness :
    query (.ok "state: R file: /tmp/a.log") "file:" = .value "/tmp/a.log" ∧
    query .err "file:" = .cmdFailed ∧
    query (.ok "state: R") "file:" = .absent ∧
    query (.ok "job 1 file:") "file:" = .crash := by
  have h := query_amended "state: R file: /tmp/a.log" "file:" "/tmp/a.log" 2
    (by decide) (by decide)
  exact ⟨h.1, h.2.1, h.2.2.1 "state: R" (by decide),
    h.2.2.2 "job 1 file:" 2 (by decide) (by decide)⟩

/-- C7: `refresh_log_path` is idempotent: once it has produced a job
whose log path has the placeholder substituted, running it again with
the scheduler outputs unchanged returns the same job unchanged. -/
theorem refresh_log_path_idempotent (env : LogEnv) (j j2 : Job)
    (h : refresh_log_path env j = some j2) :
    refresh_log_path env j2 = some j2 := by
  unfold refresh_log_path at h ⊢
  by_cases hc : containsSubstr env.fileAtt pbsPlaceholder = true
  · cases hq : env.qstatTokens[2]? with
    | none => simp [hc, hq] at h
    | some qid =>
      simp only [hc, if_true, hq, Option.some.injEq] at h
      subst h
      simp [hc, hq]
  · simp only [Bool.not_eq_true] at hc
    simp only [hc, Bool.false_eq_true, if_false, Option.some.injEq] at h
    subst h
    simp [hc]

/-- Witness for C7: a log template with the placeholder, resolved once,
is left unchanged by a second resolution. -/
theorem refresh_log_path_idempotent_witness :
    refresh_log_path ⟨"/scratch/out.${PBS_JOBID}.log", ["Job", "Id:", "777"]⟩
      ⟨"777", some "/scratch/out.777.log", none, []⟩ =
    some ⟨"777", some "/scratch/out.777.log", none, []⟩ :=
  refresh_log_path_idempotent ⟨"/scratch/out.${PBS_JOBID}.log", ["Job", "Id:", "777"]⟩
    ⟨"777", none, none, []⟩ ⟨"777", some "/scratch/out.777.log", none, []⟩ (by decide)

/-- The waiting-loop exit condition, spelled out. -/
theorem waitDone_iff (o : WaitObs) :
    waitDone o = true ↔ (o.state = "R" ∧ o.logExists = true) := by
  unfold waitDone
  simp [Bool.and_eq_true, beq_iff_eq]

/-- C8: the waiting loop hands over to the active phase only on an
observation where the job state is R and the log file exists; and for
any finite sequence of polls on which that condition never holds, the
loop is still waiting at the end of the sequence (it never times out
into the active phase). -/
theorem waiting_exits_only_running_with_log (cur : WaitObs) (pending : List WaitObs) :
    (∀ o, wait_loop cur pending = some o → o.state = "R" ∧ o.logExists = true) ∧
    ((∀ o ∈ cur :: pending, ¬(o.state = "R" ∧ o.logExists = true)) →
      wait_loop cur pending = none) := by
  induction pending generalizing cur with
  | nil =>
    refine ⟨fun o ho => ?_, fun hall => ?_⟩
    · unfold wait_loop at ho
      split at ho
      · rename_i hw
        injection ho with ho
        subst ho
        exact (waitDone_iff cur).1 hw
      · exact absurd ho (by simp)
    · have hw : ¬waitDone cur = true :=
        fun hw => hall cur (by simp) ((waitDone_iff cur).1 hw)
      unfold wait_loop
      simp [hw]
  | cons nxt rest ih =>
    refine ⟨fun o ho => ?_, fun hall => ?_⟩
    · unfold wait_loop at ho
      split at ho
      · rename_i hw
        injection ho with ho
        subst ho
        exact (waitDone_iff cur).1 hw
      · exact (ih nxt).1 o ho
    · have hw : ¬waitDone cur = true :=
        fun hw => hall cur (by simp) ((waitDone_iff cur).1 hw)
      unfold wait_loop
      simp only [hw, if_false]
      exact (ih nxt).2 (fun o ho => hall o (List.mem_cons_of_mem cur ho))

/-- Witness for C8: a queued poll followed by polls where one of the
two conditions fails leaves the loop waiting. -/
theorem waiting_exits_only_running_with_log_witness :
    (∀ o, wait_loop ⟨"Q", false⟩ [⟨"Q", true⟩, ⟨"R", false⟩] = some o →
      o.state = "R" ∧ o.logExists = true) ∧
    wait_loop ⟨"Q", false⟩ [⟨"Q", true⟩, ⟨"R", false⟩] = none :=
  ⟨(waiting_exits_only_running_with_log ⟨"Q", false⟩ [⟨"Q", true⟩, ⟨"R", false⟩]).1,
   (waiting_exits_only_running_with_log ⟨"Q", false⟩ [⟨"Q", true⟩, ⟨"R", false⟩]).2
     (by decide)⟩

/-- Single-step preservation of the frozen-notification bound: the
count of frozen emails is at most one when the flag is set and zero
when it is not, and a halting step never adds a frozen email. -/
theorem active_tick_frozen_bound (t : Tick) (s : MState)
    (h : s.emails.count "FROZEN JOB?" ≤ (if s.frozen_note then 1 else 0)) :
    (∀ s1, active_tick t s = .next s1 →
      s1.emails.count "FROZEN JOB?" ≤ (if s1.frozen_note then 1 else 0)) ∧
    (∀ s1, active_tick t s = .halt s1 → s1.emails.count "FROZEN JOB?" ≤ 1) := by
  have hbound : (if s.frozen_note then 1 else 0) ≤ 1 := by split <;> simp
  unfold active_tick
  by_cases hd : t.state = "D"
  · refine ⟨fun s1 h1 => ?_, fun s1 h1 => ?_⟩ <;> simp only [hd, if_true] at h1
    · exact absurd h1 (by simp)
    · injection h1 with h1
      subst h1
      simp only [List.count_append]
      have : ((["JOB ENDED"] : List String).count "FROZEN JOB?") = 0 := by decide
      omega
  · by_cases hoff : (get_offline_nodes t.ping s.nodes).length > 0
    · refine ⟨fun s1 h1 => ?_, fun s1 h1 => ?_⟩ <;>
        simp only [hd, if_false, hoff, if_true] at h1
      · exact absurd h1 (by simp)
      · injection h1 with h1
        subst h1
        simp only [List.count_append]
        have : ((["NODE FAILURE"] : List String).count "FROZEN JOB?") = 0 := by decide
        omega
    · by_cases hfr : TIME_DEAD < t.secsSinceLog ∧ s.frozen_note = false
      · refine ⟨fun s1 h1 => ?_, fun s1 h1 => ?_⟩ <;>
          simp only [hd, if_false, hoff, hfr, if_true] at h1
        · injection h1 with h1
          subst h1
          simp only [List.count_append, if_true]
          have h0 : s.emails.count "FROZEN JOB?" = 0 := by
            rw [hfr.2] at h
            simpa using h
          have : ((["FROZEN JOB?"] : List String).count "FROZEN JOB?") = 1 := by decide
          omega
        · exact absurd h1 (by simp)
      · refine ⟨fun s1 h1 => ?_, fun s1 h1 => ?_⟩ <;>
          simp only [hd, if_false, hoff, hfr, if_true] at h1
        · injection h1 with h1
          subst h1
          simpa using h
        · exact absurd h1 (by simp)

/-- The frozen-email bound carried around the whole active loop. -/
theorem active_loop_frozen_le_one (ticks : List Tick) (s : MState)
    (h : s.emails.count "FROZEN JOB?" ≤ (if s.frozen_note then 1 else 0)) :
    (active_loop ticks s).1.emails.count "FROZEN JOB?" ≤ 1 := by
  induction ticks generalizing s with
  | nil =>
    have hbound : (if s.frozen_note then 1 else 0) ≤ 1 := by split <;> simp
    simpa [active_loop] using le_trans h hbound
  | cons t rest ih =>
    cases hstep : active_tick t s with
    | halt s1 =>
      simpa [active_loop, hstep] using (active_tick_frozen_bound t s h).2 s1 hstep
    | next s1 =>
      simp only [active_loop, hstep]
      exact ih s1 ((active_tick_frozen_bound t s h).1 s1 hstep)

/-- C2: across any whole monitoring session started with the flag
clear, the frozen-job email appears at most once in the emitted email
list, however many ticks satisfy the staleness condition; and a tick
that fires the frozen notification continues the loop (the session
does not terminate on it). -/
theorem frozen_notification_at_most_once (ticks : List Tick) (nodes : List String)
    (t : Tick) (s : MState)
    (hstate : ¬t.state = "D")
    (hoff : get_offline_nodes t.ping s.nodes = [])
    (hstale : TIME_DEAD < t.secsSinceLog)
    (hflag : s.frozen_note = false) :
    (active_loop ticks
        { nodes := nodes, frozen_note := false, emails := [], checks := [] }
      ).1.emails.count "FROZEN JOB?" ≤ 1 ∧
    active_tick t s = .next { s with
      checks := s.checks ++ [s.nodes],
      emails := s.emails ++ ["FROZEN JOB?"],
      frozen_note := true } := by
  refine ⟨active_loop_frozen_le_one ticks _ (by simp), ?_⟩
  unfold active_tick
  simp [hstate, hoff, hstale, hflag]

/-- Witness for C2: ten consecutive stale ticks yield at most one
frozen email, and a stale tick continues rather than halting. -/
theorem frozen_notification_at_most_once_witness :
    (active_loop
        (List.replicate 10 { state := "R", secsSinceLog := 6000, ping := fun _ => true })
        { nodes := [], frozen_note := false, emails := [], checks := [] }
      ).1.emails.count "FROZEN JOB?" ≤ 1 ∧
    active_tick { state := "R", secsSinceLog := 6000, ping := fun _ => true }
        { nodes := [], frozen_note := false, emails := [], checks := [] } =
      .next { nodes := [], frozen_note := true, emails := ["FROZEN JOB?"],
              checks := [[]] } :=
  frozen_notification_at_most_once
    (List.replicate 10 { state := "R", secsSinceLog := 6000, ping := fun _ => true }) []
    { state := "R", secsSinceLog := 6000, ping := fun _ => true }
    { nodes := [], frozen_note := false, emails := [], checks := [] }
    (by decide) rfl (by decide) rfl

/-- C3: on a tick that observes state D, the session emits exactly the
one JOB ENDED email, halts at once without probing any node (the
check trace is untouched) and without the frozen check, and consumes
none of the remaining ticks. -/
theorem dead_state_ends_session (t : Tick) (rest : List Tick) (s : MState)
    (h : t.state = "D") :
    active_tick t s = .halt { s with emails := s.emails ++ ["JOB ENDED"] } ∧
    active_loop (t :: rest) s = ({ s with emails := s.emails ++ ["JOB ENDED"] }, true) ∧
    (s.emails ++ ["JOB ENDED"]).count "JOB ENDED" = s.emails.count "JOB ENDED" + 1 ∧
    ({ s with emails := s.emails ++ ["JOB ENDED"] } : MState).checks = s.checks := by
  have h1 : active_tick t s = .halt { s with emails := s.emails ++ ["JOB ENDED"] } := by
    unfold active_tick
    simp [h]
  refine ⟨h1, by simp [active_loop, h1], ?_, rfl⟩
  simp only [List.count_append]
  have : ((["JOB ENDED"] : List String).count "JOB ENDED") = 1 := by decide
  omega

/-- Witness for C3 on a dead tick with further ticks pending. -/
theorem dead_state_ends_session_witness :
    active_tick { state := "D", secsSinceLog := 9000, ping := fun _ => false }
        { nodes := ["n1"], frozen_note := false, emails := [], checks := [] } =
      .halt { nodes := ["n1"], frozen_note := false, emails := ["JOB ENDED"],
              checks := [] } ∧
    active_loop
        [{ state := "D", secsSinceLog := 9000, ping := fun _ => false },
         { state := "D", secsSinceLog := 9000, ping := fun _ => false }]
        { nodes := ["n1"], frozen_note := false, emails := [], checks := [] } =
      ({ nodes := ["n1"], frozen_note := false, emails := ["JOB ENDED"],
         checks := [] }, true) ∧
    (([] : List String) ++ ["JOB ENDED"]).count "JOB ENDED" =
      ([] : List String).count "JOB ENDED" + 1 ∧
    ({ nodes := ["n1"], frozen_note := false, emails := [] ++ ["JOB ENDED"],
       checks := [] } : MState).checks = [] :=
  dead_state_ends_session
    { state := "D", secsSinceLog := 9000, ping := fun _ => false }
    [{ state := "D", secsSinceLog := 9000, ping := fun _ => false }]
    { nodes := ["n1"], frozen_note := false, emails := [], checks := [] } rfl

/-- One step of the active loop never changes the node list, and only
appends the current node list to the trace of reachability checks. -/
theorem active_tick_nodes_frame (t : Tick) (s : MState) (s1 : MState) :
    (active_tick t s = .next s1 ∨ active_tick t s = .halt s1) →
    s1.nodes = s.nodes ∧ ∀ c ∈ s1.checks, c ∈ s.checks ∨ c = s.nodes := by
  intro hstep
  unfold active_tick at hstep
  by_cases hd : t.state = "D"
  · simp only [hd, if_true] at hstep
    rcases hstep with h1 | h1
    · exact absurd h1 (by simp)
    · injection h1 with h1
      subst h1
      exact ⟨rfl, fun c hc => Or.inl hc⟩
  · by_cases hoff : (get_offline_nodes t.ping s.nodes).length > 0
    · simp only [hd, if_false, hoff, if_true] at hstep
      rcases hstep with h1 | h1
      · exact absurd h1 (by simp)
      · injection h1 with h1
        subst h1
        refine ⟨rfl, fun c hc => ?_⟩
        simp only [List.mem_append, List.mem_singleton] at hc
        exact hc
    · by_cases hfr : TIME_DEAD < t.secsSinceLog ∧ s.frozen_note = false
      · simp only [hd, if_false, hoff, hfr, if_true] at hstep
        rcases hstep with h1 | h1
        · injection h1 with h1
          subst h1
          refine ⟨rfl, fun c hc => ?_⟩
          simp only [List.mem_append, List.mem_singleton] at hc
          exact hc
        · exact absurd h1 (by simp)
      · simp only [hd, if_false, hoff, hfr, if_true] at hstep
        rcases hstep with h1 | h1
        · injection h1 with h1
          subst h1
          refine ⟨rfl, fun c hc => ?_⟩
          simp only [List.mem_append, List.mem_singleton] at hc
          exact hc
        · exact absurd h1 (by simp)

/-- The node list is invariant across the whole active loop, and every
recorded reachability check probed that invariant node list. -/
theorem active_loop_nodes_frame (ticks : List Tick) (s : MState) :
    (active_loop ticks s).1.nodes = s.nodes ∧
    ∀ c ∈ (active_loop ticks s).1.checks, c ∈ s.checks ∨ c = s.nodes := by
  induction ticks generalizing s with
  | nil => exact ⟨rfl, fun c hc => Or.inl hc⟩
  | cons t rest ih =>
    cases hstep : active_tick t s with
    | halt s1 =>
      simp only [active_loop, hstep]
      exact active_tick_nodes_frame t s s1 (Or.inr hstep)
    | next s1 =>
      simp only [active_loop, hstep]
      obtain ⟨hn, hc⟩ := active_tick_nodes_frame t s s1 (Or.inl hstep)
      obtain ⟨hn2, hc2⟩ := ih s1
      refine ⟨hn2.trans hn, fun c hcm => ?_⟩
      rcases hc2 c hcm with h1 | h1
      · exact hc c h1
      · exact Or.inr (h1.trans hn)

/-- C9: for any session that reaches the active phase, the node list
in the final state is exactly the baseline refreshed once on entering
the active phase, and every reachability check performed during the
session probed that same baseline list. -/
theorem nodes_baseline_frame (env : RunEnv) (res : MState × Bool)
    (h : tracker_run env = some res) :
    res.1.nodes = env.baselineNodes ∧
    ∀ c ∈ res.1.checks, c = env.baselineNodes := by
  unfold tracker_run at h
  cases hw : wait_loop env.firstObs env.waitObs with
  | none => rw [hw] at h; exact absurd h (by simp)
  | some o =>
    rw [hw] at h
    injection h with h
    subst h
    obtain ⟨hn, hc⟩ := active_loop_nodes_frame env.ticks
      { nodes := env.baselineNodes, frozen_note := false, emails := [], checks := [] }
    refine ⟨hn, fun c hcm => ?_⟩
    rcases hc c hcm with h1 | h1
    · exact absurd h1 (by simp)
    · exact h1

/-- Witness for C9 on a session with one quiet active tick. -/
theorem nodes_baseline_frame_witness :
    (({ nodes := ["n1"], frozen_note := false, emails := [], checks := [["n1"]] },
        false) : MState × Bool).1.nodes = ["n1"] ∧
    ∀ c ∈ (({ nodes := ["n1"], frozen_note := false, emails := [],
              checks := [["n1"]] }, false) : MState × Bool).1.checks, c = ["n1"] :=
  nodes_baseline_frame
    { firstObs := ⟨"R", true⟩, waitObs := [], baselineNodes := ["n1"],
      ticks := [{ state := "Q", secsSinceLog := 0, ping := fun _ => true }] }
    ({ nodes := ["n1"], frozen_note := false, emails := [], checks := [["n1"]] }, false)
    rfl

example : tokens "  sqsub:  job 12345 queued  " = ["sqsub:", "job", "12345", "queued"] := by decide

example : submit_job (.ok "job submitted 987") = .record "987" := by decide

example : submit_job (.ok "  \n ") = .crash := by decide

example : query (.ok "state: R file: /tmp/a.log") "file:" = .value "/tmp/a.log" := by decide

example : query (.ok "state: R file:") "file:" = .crash := by decide

example : strReplace "/scratch/out.${PBS_JOBID}.log" pbsPlaceholder "123" = "/scratch/out.123.log" := by decide

example :
    active_tick { state := "R", secsSinceLog := 6000, ping := fun _ => true }
      { nodes := ["n1"], frozen_note := false, emails := [], checks := [] } =
    .next { nodes := ["n1"], frozen_note := true, emails := ["FROZEN JOB?"], checks := [["n1"]] } := by
  decide
